import Mathlib

/-!
Verification of the mistokenly tokenisation engine against its
natural-language specification.

The Go sources under `internal/services/pii_service.go` and
`internal/services/persistence_service.go` are shallowly embedded below.
Go byte strings and Go `string` values are both modelled as `List Nat`
(a Go string is a byte sequence; `[]byte(s)` and `string(b)` are the
identity in this model).  AES-256-GCM is modelled as an ideal
authenticated cipher: a sealed blob records the key, nonce, associated
data and plaintext, and `open` succeeds exactly when key, nonce and
associated data all match — this is the standard symbolic idealisation
of an AEAD scheme.  SHA-256 and HKDF-SHA-256 are modelled as injective
stand-ins (the code only ever compares hashes for equality and uses the
HKDF output as an opaque key).  Randomness (fresh TEKs, fresh IVs,
fresh reference hashes) and clock readings are passed as explicit
parameters.  Fallible Go functions return `Except` values.
-/

namespace Mistokenly

/-- Decidable equality for `Except` results, so that concrete runs of the
embedded fallible functions can be checked by `decide`. -/
instance {ε α : Type} [DecidableEq ε] [DecidableEq α] :
    DecidableEq (Except ε α) := fun x y =>
  match x, y with
  | .ok a, .ok b =>
    if h : a = b then .isTrue (by rw [h])
    else .isFalse (by intro hc; cases hc; exact h rfl)
  | .ok _, .error _ => .isFalse (by intro hc; cases hc)
  | .error _, .ok _ => .isFalse (by intro hc; cases hc)
  | .error e, .error f =>
    if h : e = f then .isTrue (by rw [h])
    else .isFalse (by intro hc; cases hc; exact h rfl)

/-- Go byte strings (and Go `string` values, which are byte sequences). -/
abbrev Bytes := List Nat

/-- Embed a Lean string literal as the corresponding Go string (byte list of
code points; all literals used below are ASCII, where this coincides with
UTF-8 bytes). -/
def gs (s : String) : Bytes :=
  s.data.map Char.toNat

/-- AES-256-GCM sealed blob, idealised: the ciphertext+tag of an AEAD is
modelled as a record of the sealing key, nonce, associated data and
plaintext.  `gcmOpen` releases the plaintext exactly when key, nonce and
associated data all match, mirroring GCM's authentication guarantee. -/
structure Sealed where
  key : Bytes
  iv : Bytes
  aad : Bytes
  plaintext : Bytes
deriving DecidableEq, Repr

/-- `gcm.Seal(nil, iv, plaintext, aad)` with the cipher keyed by `key`. -/
def gcmSeal (key iv plaintext aad : Bytes) : Sealed :=
  ⟨key, iv, aad, plaintext⟩

/-- `gcm.Open(nil, iv, ciphertext, aad)`: succeeds iff key, nonce and
associated data match the ones used at sealing time. -/
def gcmOpen (key iv : Bytes) (c : Sealed) (aad : Bytes) : Option Bytes :=
  if c.key = key ∧ c.iv = iv ∧ c.aad = aad then some c.plaintext else none

/-- `hex.EncodeToString(sha256.Sum256(b))`, modelled as an injective
stand-in (the code only compares these digests for equality, so any
injective function is a faithful symbolic model of a collision-free
hash). -/
def sha256Hex (b : Bytes) : Bytes :=
  b.length :: b

/-- RFC-5869 HKDF-SHA-256 expand-of-extract with `L = 32`, modelled as an
injective stand-in over (ikm, salt, info): the output is used only as an
opaque AES key. -/
def hkdfSha256 (ikm salt info : Bytes) : Bytes :=
  ikm.length :: ikm ++ salt.length :: salt ++ info.length :: info

/-- `deriveKeyWithHKDF` (pii_service.go:524): salt is the organization
key, ikm is the TEK, empty info, 32-byte output. -/
def deriveKeyWithHKDF (orgKey : Bytes) (tek : Bytes) : Bytes :=
  hkdfSha256 tek orgKey []

/-- A wrapped TEK as stored durably: the Go code prepends the 12-byte GCM
nonce to the ciphertext (`append(iv, ciphertext...)`); the byte
concatenation is modelled by this pair. -/
structure WrappedTEK where
  iv : Bytes
  ct : Sealed
deriving DecidableEq, Repr

/-- `wrapTEKWithKEK` (pii_service.go:453): seal the TEK under the KEK with
a fresh 12-byte nonce and no associated data, nonce prepended. -/
def wrapTEKWithKEK (kek tek freshIv : Bytes) : WrappedTEK :=
  ⟨freshIv, gcmSeal kek freshIv tek []⟩

/-- `unwrapTEKWithKEK` (pii_service.go:488): split off the 12-byte nonce
and GCM-open with no associated data. -/
def unwrapTEKWithKEK (kek : Bytes) (w : WrappedTEK) : Except Bytes Bytes :=
  match gcmOpen kek w.iv w.ct [] with
  | some tek => .ok tek
  | none => .error (gs "failed to decrypt TEK")

/-- `verifyOrganizationKey` (pii_service.go:443 and
persistence_service.go:728): hash the presented key and compare with the
stored hex digest. -/
def verifyOrganizationKey (orgKey : Bytes) (storedHash : Bytes) : Bool :=
  sha256Hex orgKey == storedHash

/-- `types.OrganizationTEK`: the in-memory TEK record. -/
structure OrganizationTEK where
  organizationID : Bytes
  encryptedTEK : WrappedTEK
  orgKeyHash : Bytes
  createdAt : Nat
  rotatedAt : Option Nat
  version : Nat
deriving DecidableEq, Repr

/-- A row of the `organization_teks` table (schema in the repository's
SQL: `organization_id UNIQUE`, `is_active BOOLEAN DEFAULT true`). -/
structure TekRow where
  organizationID : Bytes
  encryptedTEK : WrappedTEK
  orgKeyHash : Bytes
  createdAt : Nat
  rotatedAt : Option Nat
  version : Nat
  isActive : Bool
deriving DecidableEq, Repr

/-- The `organization_teks` table. -/
abbrev TekDB := List TekRow

/-- Rows of the table for one organization. -/
def tekRowsFor (db : TekDB) (org : Bytes) : List TekRow :=
  db.filter (fun r => r.organizationID == org)

/-- `saveTEKToDatabase` (persistence_service.go:703): INSERT .. ON
CONFLICT (organization_id) DO UPDATE replacing `encrypted_tek` and
`org_key_hash`, setting `rotated_at = NOW()`, bumping the stored
`version` and forcing `is_active = true`; a fresh insert uses the
request's values with `is_active = true` and NULL `rotated_at`. -/
def saveTEKToDatabase (db : TekDB) (tek : OrganizationTEK) (now : Nat) : TekDB :=
  if (db.find? (fun r => r.organizationID == tek.organizationID)).isSome then
    db.map (fun r =>
      if r.organizationID == tek.organizationID then
        { r with
          encryptedTEK := tek.encryptedTEK
          orgKeyHash := tek.orgKeyHash
          rotatedAt := some now
          version := r.version + 1
          isActive := true }
      else r)
  else
    db ++ [⟨tek.organizationID, tek.encryptedTEK, tek.orgKeyHash, tek.createdAt,
           none, tek.version, true⟩]

/-- Errors of `loadTEKFromDatabase`. -/
inductive TekLoadErr where
  | noRows
  | verificationFailed
deriving DecidableEq, Repr

/-- `loadTEKFromDatabase` (persistence_service.go:662): select the active
row for the organization (`sql.ErrNoRows` when absent), then verify the
presented organization key against the stored hash. -/
def loadTEKFromDatabase (db : TekDB) (org orgKey : Bytes) :
    Except TekLoadErr OrganizationTEK :=
  match db.find? (fun r => r.organizationID == org && r.isActive) with
  | none => .error .noRows
  | some r =>
    if verifyOrganizationKey orgKey r.orgKeyHash then
      .ok ⟨org, r.encryptedTEK, r.orgKeyHash, r.createdAt, r.rotatedAt, r.version⟩
    else
      .error .verificationFailed

/-- Outcome of the persistence service's `RetrieveTEK` RPC
(persistence_service.go:625): `success` carries the record, `failure`
carries the response's error message with status `"error"`. -/
inductive TekRetrieveOutcome where
  | success (rec : OrganizationTEK)
  | failure (errorMessage : Bytes)
deriving DecidableEq, Repr

/-- Whether an outcome has status `"success"`. -/
def TekRetrieveOutcome.isSuccess : TekRetrieveOutcome → Bool
  | .success _ => true
  | .failure _ => false

/-- `RetrieveTEK` (persistence_service.go:625). -/
def RetrieveTEK (db : TekDB) (org orgKey : Bytes) : TekRetrieveOutcome :=
  match loadTEKFromDatabase db org orgKey with
  | .error .noRows => .failure (gs "TEK not found for organization")
  | .error .verificationFailed =>
      .failure (gs "failed to load TEK: organization key verification failed")
  | .ok r => .success r

/-- `StoreTEK` (persistence_service.go:592): build the record and persist
it via `saveTEKToDatabase`; on success respond with status `"success"`.
Database transport failures are not modelled, so the stored database and
the success status are returned. -/
def StoreTEK (db : TekDB) (req : OrganizationTEK) (now : Nat) : TekDB × Bytes :=
  (saveTEKToDatabase db req now, gs "success")

/-- The PII service's shared mutable state: the in-memory TEK cache
(`tekCache map[string]*types.OrganizationTEK`) together with the durable
`organization_teks` table it talks to through the persistence service. -/
structure PIIState where
  tekCache : List (Bytes × OrganizationTEK)
  tekDB : TekDB
deriving DecidableEq, Repr

/-- Go map read `s.tekCache[organizationID]`. -/
def cacheLookup (c : List (Bytes × OrganizationTEK)) (org : Bytes) :
    Option OrganizationTEK :=
  (c.find? (fun e => e.1 == org)).map (fun e => e.2)

/-- Go map `delete(s.tekCache, organizationID)`. -/
def cacheErase (c : List (Bytes × OrganizationTEK)) (org : Bytes) :
    List (Bytes × OrganizationTEK) :=
  c.filter (fun e => !(e.1 == org))

/-- Go map write `s.tekCache[organizationID] = tekRecord`. -/
def cacheInsert (c : List (Bytes × OrganizationTEK)) (org : Bytes)
    (v : OrganizationTEK) : List (Bytes × OrganizationTEK) :=
  (org, v) :: cacheErase c org

/-- `getOrCreateTEK` (pii_service.go:339).  Fresh randomness for the
possible TEK creation (`freshTek`, the 32 random bytes, and `freshIv`,
the wrap nonce) and the clock reading `now` are explicit parameters.
The flow mirrors the source: consult the cache and verify the presented
key (evicting on mismatch); otherwise `RetrieveTEK` from the persistence
service; when that does not report status `"success"` — which includes
the organization-key-verification failure — generate, wrap, store and
cache a brand-new TEK; when it succeeds, cache and return its record. -/
def getOrCreateTEK (kek : Bytes) (st : PIIState) (org orgKey : Bytes)
    (freshTek freshIv : Bytes) (now : Nat) :
    Except Bytes OrganizationTEK × PIIState :=
  let cached :=
    match cacheLookup st.tekCache org with
    | some tek =>
      if verifyOrganizationKey orgKey tek.orgKeyHash then
        (some tek, st)
      else
        (none, { st with tekCache := cacheErase st.tekCache org })
    | none => (none, st)
  match cached with
  | (some tek, st1) => (.ok tek, st1)
  | (none, st1) =>
    let retrieved := RetrieveTEK st1.tekDB org orgKey
    if !retrieved.isSuccess then
      let encryptedTEK := wrapTEKWithKEK kek freshTek freshIv
      let orgKeyHashStr := sha256Hex orgKey
      let tekRecord : OrganizationTEK :=
        ⟨org, encryptedTEK, orgKeyHashStr, now, none, 1⟩
      let stored := StoreTEK st1.tekDB tekRecord now
      if stored.2 == gs "success" then
        (.ok tekRecord,
         { tekCache := cacheInsert st1.tekCache org tekRecord, tekDB := stored.1 })
      else
        (.error (gs "persistence service error storing TEK"),
         { st1 with tekDB := stored.1 })
    else
      match retrieved with
      | .success tekRecord =>
        (.ok tekRecord,
         { st1 with tekCache := cacheInsert st1.tekCache org tekRecord })
      | .failure e => (.error e, st1)

/-- `encryptPIIWithEnvelope` (pii_service.go:544): resolve the TEK,
unwrap it under the KEK, derive the field key with HKDF (salt = the
organization key, ikm = the TEK), seal the data under a fresh 12-byte
IV with no associated data, and return (ciphertext, iv). -/
def encryptPIIWithEnvelope (kek : Bytes) (st : PIIState)
    (data org orgKey : Bytes) (freshTek freshTekIv freshIv : Bytes)
    (now : Nat) : Except Bytes (Sealed × Bytes) × PIIState :=
  match getOrCreateTEK kek st org orgKey freshTek freshTekIv now with
  | (.error e, st1) => (.error (gs "failed to get TEK: " ++ e), st1)
  | (.ok tekRecord, st1) =>
    match unwrapTEKWithKEK kek tekRecord.encryptedTEK with
    | .error e => (.error (gs "failed to unwrap TEK: " ++ e), st1)
    | .ok tek =>
      let encryptionKey := deriveKeyWithHKDF orgKey tek
      if freshIv.length ≠ 12 then
        (.error (gs "generated IV has incorrect length"), st1)
      else
        (.ok (gcmSeal encryptionKey freshIv data [], freshIv), st1)

/-- `decryptPIIWithEnvelope` (pii_service.go:595): check the IV length,
resolve the TEK (this path can also create one), unwrap it, derive the
field key with HKDF, and GCM-open with no associated data. -/
def decryptPIIWithEnvelope (kek : Bytes) (st : PIIState)
    (ciphertext : Sealed) (iv : Bytes) (org orgKey : Bytes)
    (freshTek freshTekIv : Bytes) (now : Nat) :
    Except Bytes Bytes × PIIState :=
  if iv.length ≠ 12 then
    (.error (gs "invalid IV length"), st)
  else
    match getOrCreateTEK kek st org orgKey freshTek freshTekIv now with
    | (.error e, st1) => (.error (gs "failed to get TEK: " ++ e), st1)
    | (.ok tekRecord, st1) =>
      match unwrapTEKWithKEK kek tekRecord.encryptedTEK with
      | .error e => (.error (gs "failed to unwrap TEK: " ++ e), st1)
      | .ok tek =>
        let encryptionKey := deriveKeyWithHKDF orgKey tek
        match gcmOpen encryptionKey iv ciphertext [] with
        | some plaintext => (.ok plaintext, st1)
        | none => (.error (gs "failed to decrypt data"), st1)

/-- Go `time.Hour` in nanoseconds (durations are modelled, like Go's
`time.Duration`, as nanosecond counts). -/
def timeHour : Nat := 3600000000000

/-- `getRetentionDuration` (pii_service.go:642). -/
def getRetentionDuration (policy : Bytes) : Nat :=
  if policy = gs "1day" then 24 * timeHour
  else if policy = gs "7days" then 7 * 24 * timeHour
  else if policy = gs "30days" then 30 * 24 * timeHour
  else if policy = gs "1year" then 365 * 24 * timeHour
  else if policy = gs "7years" then 7 * 365 * 24 * timeHour
  else 24 * timeHour

/-- `TokenRecord` (pii_service.go:265). -/
structure TokenRecord where
  referenceHash : Bytes
  encryptedData : Sealed
  iv : Bytes
  dataType : Bytes
  clientID : Bytes
  organizationID : Bytes
  createdAt : Nat
  expiresAt : Nat
  metadata : List (Bytes × Bytes)
deriving DecidableEq, Repr

/-- `pb.TokenizeRequest` fields used by the engine. -/
structure TokenizeRequest where
  data : Bytes
  dataType : Bytes
  clientId : Bytes
  organizationId : Bytes
  organizationKey : Bytes
  retentionPolicy : Bytes
  metadata : List (Bytes × Bytes)
deriving DecidableEq, Repr

/-- `pb.TokenizeResponse` fields used by the engine. -/
structure TokenizeResponse where
  referenceHash : Bytes
  tokenType : Bytes
  expiresAt : Nat
  status : Bytes
  errorMessage : Bytes
deriving DecidableEq, Repr

/-- The set of accepted `data_type` values (pii_service.go:297). -/
def validDataType (t : Bytes) : Bool :=
  t == gs "email" || t == gs "ssn" || t == gs "phone" ||
  t == gs "credit_card" || t == gs "name" || t == gs "address"

/-- `validateTokenizeRequest` (pii_service.go:279). -/
def validateTokenizeRequest (req : TokenizeRequest) : Except Bytes Unit :=
  if req.data = [] then .error (gs "data field is required")
  else if req.dataType = [] then .error (gs "dataType field is required")
  else if req.clientId = [] then .error (gs "clientId field is required")
  else if req.organizationId = [] then
    .error (gs "organizationId field is required for envelope encryption")
  else if !validDataType req.dataType then
    .error (gs "invalid dataType")
  else .ok ()

/-- `Tokenize` (pii_service.go:88).  The generated 32-hex reference
(`freshRef`), the TEK-creation randomness, the PII IV, the clock and the
outcome of the PGMQ publish (`queueOk`; `false` covers an unavailable
queue as well as a failed `pgmq.send`) are explicit parameters.  Returns
the response, the new TEK state, and the queue contents. -/
def Tokenize (kek : Bytes) (st : PIIState) (req : TokenizeRequest)
    (freshRef : Bytes) (freshTek freshTekIv freshIv : Bytes) (now : Nat)
    (queue : List TokenRecord) (queueOk : Bool) :
    TokenizeResponse × PIIState × List TokenRecord :=
  match validateTokenizeRequest req with
  | .error e => (⟨[], [], 0, gs "error", e⟩, st, queue)
  | .ok _ =>
    if req.organizationKey = [] then
      (⟨[], [], 0, gs "error",
        gs "organizationKey is required for envelope encryption"⟩, st, queue)
    else
      let retentionDuration := getRetentionDuration req.retentionPolicy
      let expiresAt := now + retentionDuration
      match encryptPIIWithEnvelope kek st req.data req.organizationId
          req.organizationKey freshTek freshTekIv freshIv now with
      | (.error _, st1) =>
        (⟨[], [], 0, gs "error", gs "failed to encrypt PII data"⟩, st1, queue)
      | (.ok encrypted, st1) =>
        let tokenRecord : TokenRecord :=
          ⟨freshRef, encrypted.1, encrypted.2, req.dataType, req.clientId,
           req.organizationId, now, expiresAt, req.metadata⟩
        let queue2 := if queueOk then queue ++ [tokenRecord] else queue
        (⟨gs "tok_" ++ freshRef, gs "PII_TOKEN_V2_ENVELOPE", expiresAt,
          gs "success", []⟩, st1, queue2)

/-- A row of the `pii_tokens` table. -/
structure PiiRow where
  referenceHash : Bytes
  encryptedData : Sealed
  iv : Bytes
  dataType : Bytes
  clientID : Bytes
  organizationID : Bytes
  createdAt : Nat
  expiresAt : Option Nat
  updatedAt : Nat
  metadata : List (Bytes × Bytes)
deriving DecidableEq, Repr

/-- The `pii_tokens` table. -/
abbrev PiiDB := List PiiRow

/-- `pb.StorePIITokenRequest`: the payload of a `pii_token_persistence`
queue message and of the StorePIIToken RPC. -/
structure StorePIITokenRequest where
  referenceHash : Bytes
  encryptedData : Sealed
  iv : Bytes
  dataType : Bytes
  clientId : Bytes
  organizationId : Bytes
  createdAt : Option Nat
  expiresAt : Option Nat
  metadata : List (Bytes × Bytes)
deriving DecidableEq, Repr

/-- The queue message built from a `TokenRecord` by `queueForPersistence`
(pii_service.go:727); zero timestamps are omitted. -/
def persistenceRequestOf (r : TokenRecord) : StorePIITokenRequest :=
  ⟨r.referenceHash, r.encryptedData, r.iv, r.dataType, r.clientID,
   r.organizationID,
   if r.createdAt ≠ 0 then some r.createdAt else none,
   if r.expiresAt ≠ 0 then some r.expiresAt else none,
   r.metadata⟩

/-- `storePIIToken` (persistence_service.go:209): INSERT .. ON CONFLICT
(reference_hash) DO UPDATE replacing `encrypted_data`, `iv`,
`data_type`, `client_id`, `expires_at` and `metadata` and bumping
`updated_at` (but leaving `organization_id` and `created_at` alone); a
fresh insert takes `created_at` and `updated_at` from the database
clock defaults. -/
def storePIIToken (db : PiiDB) (req : StorePIITokenRequest) (now : Nat) :
    PiiDB :=
  if (db.find? (fun r => r.referenceHash == req.referenceHash)).isSome then
    db.map (fun r =>
      if r.referenceHash == req.referenceHash then
        { r with
          encryptedData := req.encryptedData
          iv := req.iv
          dataType := req.dataType
          clientID := req.clientId
          expiresAt := req.expiresAt
          metadata := req.metadata
          updatedAt := now }
      else r)
  else
    db ++ [⟨req.referenceHash, req.encryptedData, req.iv, req.dataType,
           req.clientId, req.organizationId, now, req.expiresAt, now,
           req.metadata⟩]

/-- Errors of the persistence-side PII retrieval. -/
inductive PiiRetrieveErr where
  | notFound
  | expired
deriving DecidableEq, Repr

/-- The database path of `RetrievePIIToken`
(persistence_service.go:468): select by `reference_hash` AND
`organization_id`; absent rows give "Token not found in persistent
storage", rows with `expires_at` in the past give "Token has expired";
this models the cache-disabled configuration (`redisClient == nil`), in
which `RetrievePIIToken` goes straight to the database. -/
def retrievePIITokenFromDatabase (db : PiiDB) (hash org : Bytes)
    (now : Nat) : Except PiiRetrieveErr PiiRow :=
  match db.find? (fun r => r.referenceHash == hash && r.organizationID == org) with
  | none => .error .notFound
  | some r =>
    match r.expiresAt with
    | some t => if t < now then .error .expired else .ok r
    | none => .ok r

/-- The PII-service-side `retrieveFromDatabase` (pii_service.go:661):
call the persistence service's `RetrievePIIToken` and convert a
successful response into a `TokenRecord` (missing timestamps remain the
zero value); any non-success response surfaces as an error. -/
def retrieveFromDatabase (db : PiiDB) (hash org : Bytes) (nowP : Nat) :
    Except Bytes TokenRecord :=
  match retrievePIITokenFromDatabase db hash org nowP with
  | .error .notFound => .error (gs "token not found: Token not found in persistent storage")
  | .error .expired => .error (gs "token not found: Token has expired")
  | .ok r =>
    .ok ⟨r.referenceHash, r.encryptedData, r.iv, r.dataType, r.clientID,
         org, r.createdAt, r.expiresAt.getD 0, r.metadata⟩

/-- `pb.DetokenizeRequest` fields used by the engine. -/
structure DetokenizeRequest where
  referenceHash : Bytes
  purpose : Bytes
  requestingService : Bytes
  requestingUser : Bytes
  organizationId : Bytes
  organizationKey : Bytes
deriving DecidableEq, Repr

/-- `pb.DetokenizeResponse` fields used by the engine. -/
structure DetokenizeResponse where
  data : Bytes
  dataType : Bytes
  originalTimestamp : Nat
  accessLogged : Bool
  status : Bytes
  errorMessage : Bytes
deriving DecidableEq, Repr

/-- An error `DetokenizeResponse` with the given message. -/
def detokenizeError (e : Bytes) : DetokenizeResponse :=
  ⟨[], [], 0, false, gs "error", e⟩

/-- `validateDetokenizeRequest` (pii_service.go:313). -/
def validateDetokenizeRequest (req : DetokenizeRequest) : Except Bytes Unit :=
  if req.referenceHash = [] then .error (gs "referenceHash field is required")
  else if req.purpose = [] then .error (gs "purpose field is required")
  else if req.requestingService = [] then
    .error (gs "requestingService field is required")
  else if req.organizationId = [] then
    .error (gs "organizationId field is required for decryption")
  else .ok ()

/-- The reference-prefix stripping of `Detokenize` (pii_service.go:184):
`if len(hashOnly) > 4 && hashOnly[:4] == "tok_" { hashOnly = hashOnly[4:] }`. -/
def stripTok (ref : Bytes) : Bytes :=
  if ref.length > 4 ∧ ref.take 4 = gs "tok_" then ref.drop 4 else ref

/-- `Detokenize` (pii_service.go:165).  `nowP` is the persistence
service's clock reading during retrieval and `now` the engine's own
reading for the expiry check; `freshTek`/`freshTekIv` feed the TEK
resolution (which can create a TEK on this path too). -/
def Detokenize (kek : Bytes) (st : PIIState) (db : PiiDB)
    (req : DetokenizeRequest) (freshTek freshTekIv : Bytes)
    (nowP now : Nat) : DetokenizeResponse × PIIState :=
  match validateDetokenizeRequest req with
  | .error e => (detokenizeError e, st)
  | .ok _ =>
    if req.organizationKey = [] then
      (detokenizeError (gs "organizationKey is required for decryption"), st)
    else
      let hashOnly := stripTok req.referenceHash
      match retrieveFromDatabase db hashOnly req.organizationId nowP with
      | .error _ => (detokenizeError (gs "token not found"), st)
      | .ok tokenRecord =>
        if now > tokenRecord.expiresAt then
          (detokenizeError (gs "token has expired"), st)
        else
          match decryptPIIWithEnvelope kek st tokenRecord.encryptedData
              tokenRecord.iv tokenRecord.organizationID req.organizationKey
              freshTek freshTekIv now with
          | (.error _, st1) =>
            (detokenizeError
              (gs "failed to decrypt PII data - invalid organization key"), st1)
          | (.ok data, st1) =>
            (⟨data, tokenRecord.dataType, tokenRecord.createdAt, true,
              gs "success", []⟩, st1)

/-- Result of one iteration of the worker loop body in `processMessages`
(persistence_service.go:156) for a single queue message: the database
after the step, whether the upsert was applied, and whether the message
was deleted from the queue. -/
structure WorkerStepResult where
  db : PiiDB
  stored : Bool
  deleted : Bool
deriving DecidableEq, Repr

/-- The per-message body of `processMessages`
(persistence_service.go:177): `payload = none` models a message whose
JSON fails to unmarshal (it is deleted and skipped); otherwise the
token is upserted — `dbOk` models the database call's success — and the
message is deleted only when the upsert succeeded, else left for
redelivery after the visibility timeout. -/
def processMessage (db : PiiDB) (payload : Option StorePIITokenRequest)
    (dbOk : Bool) (now : Nat) : WorkerStepResult :=
  match payload with
  | none => ⟨db, false, true⟩
  | some req =>
    if dbOk then ⟨storePIIToken db req now, true, true⟩
    else ⟨db, false, false⟩

/-- The columns of a `pii_tokens` row named by claim C8 (everything except
`created_at` and `updated_at`). -/
def piiRowContent (r : PiiRow) :
    Bytes × Sealed × Bytes × Bytes × Bytes × Bytes × Option Nat × List (Bytes × Bytes) :=
  (r.referenceHash, r.encryptedData, r.iv, r.dataType, r.clientID,
   r.organizationID, r.expiresAt, r.metadata)

/-- Replay the same `StorePIIToken` message once per clock reading in
`times` (at-least-once delivery applies the upsert repeatedly). -/
def replayStore (db : PiiDB) (req : StorePIITokenRequest) (times : List Nat) :
    PiiDB :=
  times.foldl (fun d t => storePIIToken d req t) db

/-- Every row carrying the message's reference hash agrees with the
message on each column the upsert replaces. -/
def rowsMatchRequest (d : PiiDB) (req : StorePIITokenRequest) : Prop :=
  ∀ r ∈ d, r.referenceHash == req.referenceHash →
    r.encryptedData = req.encryptedData ∧ r.iv = req.iv ∧
    r.dataType = req.dataType ∧ r.clientID = req.clientId ∧
    r.expiresAt = req.expiresAt ∧ r.metadata = req.metadata

/-- The associated data recorded in the blob produced by a successful
envelope encryption. -/
def sealedAad (e : Except Bytes (Sealed × Bytes)) : Option Bytes :=
  match e with
  | .ok p => some p.1.aad
  | .error _ => none

/-- A 12-byte nonce used by concrete test vectors. -/
def iv12 : Bytes := [0, 1, 2, 3, 4, 5, 6, 7, 8, 9, 10, 11]

/-- A second, distinct 12-byte nonce used by concrete test vectors. -/
def iv12b : Bytes := [9, 9, 2, 3, 4, 5, 6, 7, 8, 9, 10, 11]

/-- A 32-byte key used by concrete test vectors (the KEK). -/
def kek0 : Bytes := List.range 32

/-- A 32-byte key used by concrete test vectors (a TEK). -/
def tek0 : Bytes := (List.range 32).map (fun i => i + 100)

/-- A second 32-byte key used by concrete test vectors (a fresh TEK). -/
def tek1 : Bytes := (List.range 32).map (fun i => i + 200)

/-- Concrete tokenize request used by concrete runs. -/
def reqW : TokenizeRequest :=
  ⟨gs "user@example.com", gs "email", gs "c1", gs "acme", gs "s3cret",
   gs "1day", []⟩

/-- Concrete 32-hex reference hash used by concrete runs. -/
def refW : Bytes := gs "0123456789abcdef0123456789abcdef"

/-- The initial PII-service state: empty TEK cache, empty TEK table. -/
def emptyState : PIIState := ⟨[], []⟩

/-- A stored TEK row for organization `acme`, created with organization
key `s3cret`. -/
def tekRowA : TekRow :=
  ⟨gs "acme", wrapTEKWithKEK kek0 tek0 iv12, sha256Hex (gs "s3cret"),
   1, none, 1, true⟩

/-- A PII-service state whose durable store already holds the `acme` TEK. -/
def stA : PIIState := ⟨[], [tekRowA]⟩

/-- A fresh TEK record for `acme` wrapped from `tek1`, hashed from the
key `wrong` (what `getOrCreateTEK` builds on the wrong-key path). -/
def tekNewA : OrganizationTEK :=
  ⟨gs "acme", wrapTEKWithKEK kek0 tek1 iv12b, sha256Hex (gs "wrong"),
   7, none, 1⟩

/-- A stored PII row for `acme`, sealed under the field key derived from
organization key `s3cret` and the `acme` TEK. -/
def rowA : PiiRow :=
  ⟨refW, gcmSeal (deriveKeyWithHKDF (gs "s3cret") tek0) iv12
     (gs "user@example.com") [],
   iv12, gs "email", gs "c1", gs "acme", 1, some 1000, 1, []⟩

/-- A detokenize request for `rowA` presenting the correct organization
key. -/
def dreqGood : DetokenizeRequest :=
  ⟨gs "tok_" ++ refW, gs "support", gs "crm", [], gs "acme", gs "s3cret"⟩

/-- A detokenize request for `rowA` presenting a wrong organization
key. -/
def dreqWrong : DetokenizeRequest :=
  ⟨gs "tok_" ++ refW, gs "support", gs "crm", [], gs "acme", gs "wrong"⟩

/-- Concrete `StorePIIToken` message used by concrete runs. -/
def preqW : StorePIITokenRequest :=
  ⟨refW, gcmSeal (deriveKeyWithHKDF (gs "s3cret") tek0) iv12
     (gs "user@example.com") [],
   iv12, gs "email", gs "c1", gs "acme", some 1, some 1000, []⟩

/-! ## General lemmas about the embedding -/

theorem sha256Hex_injective : Function.Injective sha256Hex := by
  intro a b h
  exact (List.cons.injEq _ _ _ _ ▸ h).2

theorem gcmOpen_gcmSeal (key iv plaintext aad : Bytes) :
    gcmOpen key iv (gcmSeal key iv plaintext aad) aad = some plaintext := by
  simp [gcmOpen, gcmSeal]

theorem unwrap_wrapTEK (kek tek freshIv : Bytes) :
    unwrapTEKWithKEK kek (wrapTEKWithKEK kek tek freshIv) = .ok tek := by
  simp [unwrapTEKWithKEK, wrapTEKWithKEK, gcmOpen_gcmSeal]

theorem cacheLookup_insert (c : List (Bytes × OrganizationTEK)) (org : Bytes)
    (v : OrganizationTEK) : cacheLookup (cacheInsert c org v) org = some v := by
  simp [cacheLookup, cacheInsert, List.find?_cons]

theorem retrieveTEK_success_verify {db : TekDB} {org orgKey : Bytes}
    {rec : OrganizationTEK} (h : RetrieveTEK db org orgKey = .success rec) :
    verifyOrganizationKey orgKey rec.orgKeyHash = true := by
  unfold RetrieveTEK loadTEKFromDatabase at h
  split at h
  · exact absurd h (by simp)
  · exact absurd h (by simp)
  · rename_i r hload
    split at hload
    · exact absurd hload (by simp)
    · rename_i row hfind
      split at hload
      · rename_i hv
        cases hload
        cases h
        exact hv
      · exact absurd hload (by simp)

/-- After a successful TEK resolution, the returned record sits in the
cache of the resulting state and verifies against the presented key. -/
theorem getOrCreateTEK_cache_after {kek : Bytes} {st : PIIState}
    {org orgKey freshTek freshIv : Bytes} {now : Nat}
    {rec : OrganizationTEK} {st' : PIIState}
    (h : getOrCreateTEK kek st org orgKey freshTek freshIv now = (.ok rec, st')) :
    cacheLookup st'.tekCache org = some rec ∧
    verifyOrganizationKey orgKey rec.orgKeyHash = true := by
  unfold getOrCreateTEK at h
  simp only [StoreTEK, beq_self_eq_true, if_true] at h
  split at h
  · rename_i tek st1 hcached
    split at hcached
    · rename_i tk hc
      split at hcached
      · rename_i hv
        cases hcached
        cases h
        exact ⟨hc, hv⟩
      · exact absurd hcached (by simp)
    · exact absurd hcached (by simp)
  · rename_i st1 hcached
    split at h
    · cases h
      exact ⟨cacheLookup_insert _ _ _, by simp [verifyOrganizationKey]⟩
    · rename_i hns
      split at h
      · rename_i tekRecord hr
        cases h
        exact ⟨cacheLookup_insert _ _ _, retrieveTEK_success_verify hr⟩
      · exact absurd h (by simp)

/-- A cached record whose hash verifies is returned as-is, with the state
untouched (the cache-hit fast path of `getOrCreateTEK`). -/
theorem getOrCreateTEK_cached {st : PIIState} {org orgKey : Bytes}
    {rec : OrganizationTEK}
    (h1 : cacheLookup st.tekCache org = some rec)
    (h2 : verifyOrganizationKey orgKey rec.orgKeyHash = true)
    (kek freshTek freshIv : Bytes) (now : Nat) :
    getOrCreateTEK kek st org orgKey freshTek freshIv now = (.ok rec, st) := by
  unfold getOrCreateTEK
  rw [h1]
  simp only [if_pos h2]

/-- TEK resolution is stable: resolving again with the same organization
and key after a successful resolution returns the same record and leaves
the state unchanged. -/
theorem getOrCreateTEK_stable {kek : Bytes} {st : PIIState}
    {org orgKey freshTek freshIv : Bytes} {now : Nat}
    {rec : OrganizationTEK} {st' : PIIState}
    (h : getOrCreateTEK kek st org orgKey freshTek freshIv now = (.ok rec, st'))
    (freshTek' freshIv' : Bytes) (now' : Nat) :
    getOrCreateTEK kek st' org orgKey freshTek' freshIv' now' = (.ok rec, st') := by
  obtain ⟨h1, h2⟩ := getOrCreateTEK_cache_after h
  exact getOrCreateTEK_cached h1 h2 kek freshTek' freshIv' now'

/-- Anatomy of a successful envelope encryption: the TEK was resolved, it
unwraps under the KEK, the IV is 12 bytes, and the result seals the data
under the HKDF-derived key with empty associated data. -/
theorem encrypt_shape {kek : Bytes} {st : PIIState} {data org orgKey : Bytes}
    {ft fti fiv : Bytes} {now : Nat} {p : Sealed × Bytes} {st1 : PIIState}
    (h : encryptPIIWithEnvelope kek st data org orgKey ft fti fiv now = (.ok p, st1)) :
    ∃ rec tek,
      getOrCreateTEK kek st org orgKey ft fti now = (.ok rec, st1) ∧
      unwrapTEKWithKEK kek rec.encryptedTEK = .ok tek ∧
      fiv.length = 12 ∧
      p = (gcmSeal (deriveKeyWithHKDF orgKey tek) fiv data [], fiv) := by
  unfold encryptPIIWithEnvelope at h
  split at h
  · exact absurd h (by simp)
  · rename_i tekRecord st2 hget
    split at h
    · exact absurd h (by simp)
    · rename_i tek hunwrap
      split at h
      · exact absurd h (by simp)
      · rename_i hlen
        cases h
        exact ⟨tekRecord, tek, hget, hunwrap, by omega, rfl⟩

/-- Envelope round trip: decrypting what `encryptPIIWithEnvelope` sealed,
with the same organization and organization key and starting from the
state the encryption left behind, returns the plaintext. -/
theorem envelope_roundtrip {kek : Bytes} {st : PIIState}
    {data org orgKey ft fti fiv : Bytes} {now : Nat} {ct : Sealed}
    {iv : Bytes} {st1 : PIIState}
    (h : encryptPIIWithEnvelope kek st data org orgKey ft fti fiv now = (.ok (ct, iv), st1))
    (ft' fti' : Bytes) (now' : Nat) :
    decryptPIIWithEnvelope kek st1 ct iv org orgKey ft' fti' now' = (.ok data, st1) := by
  obtain ⟨rec, tek, hget, hunwrap, hlen, hp⟩ := encrypt_shape h
  have hct : ct = gcmSeal (deriveKeyWithHKDF orgKey tek) fiv data [] :=
    congrArg Prod.fst hp
  have hiv : iv = fiv := congrArg Prod.snd hp
  subst hct hiv
  unfold decryptPIIWithEnvelope
  rw [if_neg (by omega), getOrCreateTEK_stable hget ft' fti' now']
  simp only [hunwrap, gcmOpen_gcmSeal]

/-- Anatomy of a successful `Tokenize`: the request validated, the
organization key was present, the envelope encryption succeeded, the
response carries the `tok_`-prefixed reference and the computed expiry,
and (when the publish succeeded) the full record was queued. -/
theorem tokenize_success_shape {kek : Bytes} {st : PIIState}
    {req : TokenizeRequest} {freshRef ft fti fiv : Bytes} {now : Nat}
    {queue : List TokenRecord} {queueOk : Bool} {resp : TokenizeResponse}
    {st1 : PIIState} {q1 : List TokenRecord}
    (h : Tokenize kek st req freshRef ft fti fiv now queue queueOk = (resp, st1, q1))
    (hs : resp.status = gs "success") :
    validateTokenizeRequest req = .ok () ∧
    req.organizationKey ≠ [] ∧
    ∃ ct : Sealed,
      encryptPIIWithEnvelope kek st req.data req.organizationId
        req.organizationKey ft fti fiv now = (.ok (ct, fiv), st1) ∧
      resp = ⟨gs "tok_" ++ freshRef, gs "PII_TOKEN_V2_ENVELOPE",
              now + getRetentionDuration req.retentionPolicy, gs "success", []⟩ ∧
      q1 = (if queueOk then
              queue ++ [⟨freshRef, ct, fiv, req.dataType, req.clientId,
                         req.organizationId, now,
                         now + getRetentionDuration req.retentionPolicy,
                         req.metadata⟩]
            else queue) := by
  unfold Tokenize at h
  split at h
  · cases h
    dsimp only at hs
    exact absurd hs (by decide)
  · rename_i hval
    split at h
    · cases h
      dsimp only at hs
      exact absurd hs (by decide)
    · rename_i hkey
      split at h
      · cases h
        dsimp only at hs
        exact absurd hs (by decide)
      · rename_i encrypted st2 henc
        obtain ⟨rec, tek, hget, hunwrap, hlen, hp⟩ := encrypt_shape henc
        subst hp
        cases h
        exact ⟨hval, hkey, _, henc, rfl, rfl⟩

/-- The `Tokenize` response and resulting TEK state do not depend on the
outcome of the queue publish. -/
theorem tokenize_resp_queue_indep (kek : Bytes) (st : PIIState)
    (req : TokenizeRequest) (freshRef ft fti fiv : Bytes) (now : Nat)
    (queue : List TokenRecord) (b : Bool) :
    (Tokenize kek st req freshRef ft fti fiv now queue b).1
      = (Tokenize kek st req freshRef ft fti fiv now queue true).1 ∧
    (Tokenize kek st req freshRef ft fti fiv now queue b).2.1
      = (Tokenize kek st req freshRef ft fti fiv now queue true).2.1 := by
  unfold Tokenize
  split
  · exact ⟨rfl, rfl⟩
  · split
    · exact ⟨rfl, rfl⟩
    · split
      · exact ⟨rfl, rfl⟩
      · exact ⟨rfl, rfl⟩

theorem gs_tok_append_ne_nil (h : Bytes) : gs "tok_" ++ h ≠ [] := by
  intro hc
  exact absurd (List.append_eq_nil.mp hc).1 (by decide)

theorem stripTok_tok_append (h : Bytes) (hh : h ≠ []) :
    stripTok (gs "tok_" ++ h) = h := by
  have hlen4 : (gs "tok_").length = 4 := by decide
  unfold stripTok
  rw [if_pos]
  · conv in 4 => rw [← hlen4]
    exact List.drop_left _ _
  · refine ⟨?_, ?_⟩
    · rw [List.length_append, hlen4]
      have : 0 < h.length := List.length_pos.mpr hh
      omega
    · conv in List.take 4 _ => rw [← hlen4]
      exact List.take_left _ _

theorem validate_tokenize_fields {req : TokenizeRequest}
    (h : validateTokenizeRequest req = .ok ()) :
    req.data ≠ [] ∧ req.dataType ≠ [] ∧ req.clientId ≠ [] ∧
    req.organizationId ≠ [] ∧ validDataType req.dataType = true := by
  unfold validateTokenizeRequest at h
  split at h
  · exact absurd h (by simp)
  · rename_i h1
    split at h
    · exact absurd h (by simp)
    · rename_i h2
      split at h
      · exact absurd h (by simp)
      · rename_i h3
        split at h
        · exact absurd h (by simp)
        · rename_i h4
          split at h
          · exact absurd h (by simp)
          · rename_i h5
            exact ⟨h1, h2, h3, h4, by simpa using h5⟩

theorem getRetentionDuration_pos (p : Bytes) : 0 < getRetentionDuration p := by
  unfold getRetentionDuration
  repeat' split
  all_goals decide

theorem gcmOpen_some {key iv : Bytes} {c : Sealed} {aad pt : Bytes}
    (h : gcmOpen key iv c aad = some pt) :
    c.key = key ∧ c.iv = iv ∧ c.aad = aad ∧ c.plaintext = pt := by
  unfold gcmOpen at h
  split at h
  · rename_i hc
    cases h
    exact ⟨hc.1, hc.2.1, hc.2.2, rfl⟩
  · exact absurd h (by simp)

/-- A successful envelope decryption went through a GCM open with empty
associated data, so the blob's recorded associated data is empty. -/
theorem decrypt_ok_aad {kek : Bytes} {st : PIIState} {ct : Sealed}
    {iv org orgKey ft fti : Bytes} {now : Nat} {pt : Bytes} {st1 : PIIState}
    (h : decryptPIIWithEnvelope kek st ct iv org orgKey ft fti now = (.ok pt, st1)) :
    ct.aad = [] ∧ ct.plaintext = pt := by
  unfold decryptPIIWithEnvelope at h
  split at h
  · exact absurd h (by simp)
  · split at h
    · exact absurd h (by simp)
    · rename_i tekRecord st2 hget
      split at h
      · exact absurd h (by simp)
      · rename_i tek hunwrap
        dsimp only at h
        split at h
        · rename_i pt2 hopen
          cases h
          obtain ⟨-, -, haad, hpt⟩ := gcmOpen_some hopen
          exact ⟨haad, hpt⟩
        · exact absurd h (by simp)

/-- A successful TEK unwrap went through a GCM open with empty associated
data. -/
theorem unwrap_ok_aad {kek : Bytes} {w : WrappedTEK} {tek : Bytes}
    (h : unwrapTEKWithKEK kek w = .ok tek) : w.ct.aad = [] := by
  unfold unwrapTEKWithKEK at h
  split at h
  · rename_i tek2 hopen
    exact (gcmOpen_some hopen).2.2.1
  · exact absurd h (by simp)

theorem storePIIToken_present (db : PiiDB) (req : StorePIITokenRequest)
    (n : Nat) :
    ((storePIIToken db req n).find?
      (fun r => r.referenceHash == req.referenceHash)).isSome = true := by
  rw [List.find?_isSome]
  unfold storePIIToken
  split
  · rename_i hf
    rw [List.find?_isSome] at hf
    obtain ⟨x, hx, hpx⟩ := hf
    refine ⟨_, List.mem_map_of_mem _ hx, ?_⟩
    rw [if_pos hpx]
    exact hpx
  · exact ⟨_, List.mem_append_right _ (List.mem_singleton.mpr rfl), by simp⟩

theorem storePIIToken_updated (db : PiiDB) (req : StorePIITokenRequest)
    (n : Nat) : rowsMatchRequest (storePIIToken db req n) req := by
  intro r hr hpr
  unfold storePIIToken at hr
  split at hr
  · obtain ⟨x, hx, hfx⟩ := List.mem_map.mp hr
    by_cases hpx : (x.referenceHash == req.referenceHash) = true
    · rw [if_pos hpx] at hfx
      subst hfx
      exact ⟨rfl, rfl, rfl, rfl, rfl, rfl⟩
    · rw [if_neg hpx] at hfx
      subst hfx
      exact absurd hpr hpx
  · rename_i hf
    rw [List.mem_append] at hr
    cases hr with
    | inl hin =>
      have hnone := List.find?_eq_none.mp (Option.not_isSome_iff_eq_none.mp hf)
      exact absurd hpr (hnone r hin)
    | inr hone =>
      rw [List.mem_singleton] at hone
      subst hone
      exact ⟨rfl, rfl, rfl, rfl, rfl, rfl⟩

theorem storePIIToken_stable (d : PiiDB) (req : StorePIITokenRequest)
    (n : Nat)
    (hP : (d.find? (fun r => r.referenceHash == req.referenceHash)).isSome = true)
    (hU : rowsMatchRequest d req) :
    (storePIIToken d req n).map piiRowContent = d.map piiRowContent := by
  unfold storePIIToken
  rw [if_pos hP, List.map_map]
  apply List.map_congr_left
  intro x hx
  simp only [Function.comp_apply]
  by_cases hpx : (x.referenceHash == req.referenceHash) = true
  · obtain ⟨h1, h2, h3, h4, h5, h6⟩ := hU x hx hpx
    rw [if_pos hpx]
    simp only [piiRowContent]
    rw [h1, h2, h3, h4, h5, h6]
  · rw [if_neg hpx]

theorem storePIIToken_countP (db : PiiDB) (req : StorePIITokenRequest)
    (n : Nat)
    (hkey : db.countP (fun r => r.referenceHash == req.referenceHash) ≤ 1) :
    (storePIIToken db req n).countP
      (fun r => r.referenceHash == req.referenceHash) = 1 := by
  unfold storePIIToken
  split
  · rename_i hf
    rw [List.countP_map]
    have hcong : db.countP
        ((fun r : PiiRow => r.referenceHash == req.referenceHash) ∘
          (fun r => if r.referenceHash == req.referenceHash then
            { r with
              encryptedData := req.encryptedData
              iv := req.iv
              dataType := req.dataType
              clientID := req.clientId
              expiresAt := req.expiresAt
              metadata := req.metadata
              updatedAt := n }
          else r))
        = db.countP (fun r => r.referenceHash == req.referenceHash) := by
      apply List.countP_congr
      intro x hx
      simp only [Function.comp_apply]
      by_cases hpx : (x.referenceHash == req.referenceHash) = true
      · rw [if_pos hpx]
      · rw [if_neg hpx]
    rw [hcong]
    rw [List.find?_isSome] at hf
    have hpos : 0 < db.countP (fun r => r.referenceHash == req.referenceHash) :=
      List.countP_pos_iff.mpr hf
    omega
  · rename_i hf
    rw [List.countP_append]
    have h0 : db.countP (fun r => r.referenceHash == req.referenceHash) = 0 :=
      List.countP_eq_zero.mpr
        (List.find?_eq_none.mp (Option.not_isSome_iff_eq_none.mp hf))
    rw [h0]
    simp

theorem countP_of_map_content_eq {d1 d2 : PiiDB} (hash : Bytes)
    (h : d1.map piiRowContent = d2.map piiRowContent) :
    d1.countP (fun r => r.referenceHash == hash)
      = d2.countP (fun r => r.referenceHash == hash) := by
  have e1 : (d1.map piiRowContent).countP (fun c => c.1 == hash)
      = d1.countP (fun r => r.referenceHash == hash) := List.countP_map _ _ _
  have e2 : (d2.map piiRowContent).countP (fun c => c.1 == hash)
      = d2.countP (fun r => r.referenceHash == hash) := List.countP_map _ _ _
  rw [← e1, ← e2, h]

theorem replayStore_stable (req : StorePIITokenRequest) (ts : List Nat)
    (d : PiiDB)
    (hP : (d.find? (fun r => r.referenceHash == req.referenceHash)).isSome = true)
    (hU : rowsMatchRequest d req) :
    (replayStore d req ts).map piiRowContent = d.map piiRowContent := by
  induction ts generalizing d with
  | nil => rfl
  | cons t ts ih =>
    have hstep : replayStore d req (t :: ts)
        = replayStore (storePIIToken d req t) req ts := rfl
    rw [hstep,
        ih (storePIIToken d req t) (storePIIToken_present d req t)
          (storePIIToken_updated d req t),
        storePIIToken_stable d req t hP hU]

/-! ## Claim theorems -/

/-- C7: for every message processed by a persistence worker, a message
that fails to unmarshal is deleted from the queue without touching the
database (poison-pill drop); a message whose database upsert fails is
left undeleted (and the database untouched) so it is redelivered after
the visibility timeout; and a parseable message is deleted exactly when
its upsert succeeded, in which case the upsert has been applied. -/
theorem claim_C7 (db : PiiDB) (req : StorePIITokenRequest) (dbOk : Bool)
    (now : Nat) :
    processMessage db none dbOk now = ⟨db, false, true⟩ ∧
    processMessage db (some req) false now = ⟨db, false, false⟩ ∧
    ((processMessage db (some req) dbOk now).deleted = true ↔ dbOk = true) ∧
    processMessage db (some req) true now = ⟨storePIIToken db req now, true, true⟩ := by
  refine ⟨rfl, rfl, ?_, rfl⟩
  cases dbOk <;> simp [processMessage]

/-- C10: the `tok_` prefix is stripped only when the reference is
strictly longer than 4 bytes and starts with exactly `tok_`; any other
reference — including the bare hash and the exact 4-byte string
`tok_` — is used verbatim, so `Detokenize` accepts a prefixed and an
unprefixed reference for the same stored hash interchangeably. -/
theorem claim_C10 (h ref : Bytes) (kek : Bytes) (st : PIIState)
    (db : PiiDB) (req : DetokenizeRequest) (ft fti : Bytes)
    (nowP now : Nat) (hh : h ≠ []) (hh4 : h.take 4 ≠ gs "tok_")
    (href : ¬ (ref.length > 4 ∧ ref.take 4 = gs "tok_")) :
    stripTok (gs "tok_" ++ h) = h ∧
    stripTok ref = ref ∧
    stripTok (gs "tok_") = gs "tok_" ∧
    Detokenize kek st db { req with referenceHash := gs "tok_" ++ h } ft fti nowP now
      = Detokenize kek st db { req with referenceHash := h } ft fti nowP now := by
  have h1 : stripTok (gs "tok_" ++ h) = h := stripTok_tok_append h hh
  have h2 : stripTok h = h := by
    unfold stripTok
    rw [if_neg]
    intro hcontra
    exact hh4 hcontra.2
  have hne1 : gs "tok_" ++ h ≠ [] := gs_tok_append_ne_nil h
  refine ⟨h1, ?_, by decide, ?_⟩
  · unfold stripTok
    exact if_neg href
  · unfold Detokenize validateDetokenizeRequest
    dsimp only
    rw [if_neg hne1, if_neg hh, h1, h2]

/-- C9: a valid `Tokenize` request that succeeds with a working queue
returns the identical successful response — status `success` and the
well-formed `tok_`-prefixed reference — when the queue publish fails;
the queue failure merely leaves the queue unchanged and is never
surfaced to the caller. -/
theorem claim_C9 (kek : Bytes) (st : PIIState) (req : TokenizeRequest)
    (freshRef ft fti fiv : Bytes) (now : Nat) (queue : List TokenRecord)
    (hs : (Tokenize kek st req freshRef ft fti fiv now queue true).1.status = gs "success") :
    (Tokenize kek st req freshRef ft fti fiv now queue false).1
      = (Tokenize kek st req freshRef ft fti fiv now queue true).1 ∧
    (Tokenize kek st req freshRef ft fti fiv now queue false).1.status = gs "success" ∧
    (Tokenize kek st req freshRef ft fti fiv now queue false).1.referenceHash
      = gs "tok_" ++ freshRef ∧
    (Tokenize kek st req freshRef ft fti fiv now queue false).2.2 = queue := by
  have hind := (tokenize_resp_queue_indep kek st req freshRef ft fti fiv now queue false).1
  have hfs : (Tokenize kek st req freshRef ft fti fiv now queue false).1.status
      = gs "success" := by rw [hind]; exact hs
  have heta : Tokenize kek st req freshRef ft fti fiv now queue false
      = ((Tokenize kek st req freshRef ft fti fiv now queue false).1,
         (Tokenize kek st req freshRef ft fti fiv now queue false).2.1,
         (Tokenize kek st req freshRef ft fti fiv now queue false).2.2) := rfl
  obtain ⟨-, -, ct, -, hresp, hq⟩ := tokenize_success_shape heta hfs
  refine ⟨hind, hfs, ?_, ?_⟩
  · rw [hresp]
  · simpa using hq

/-- C6: the retention policy tokens map to durations exactly as
`{1day→24h, 7days→168h, 30days→720h, 1year→8760h, 7years→61320h}`, any
other value maps to 24h, and a successful `Tokenize` computes the
response's and the queued record's `expires_at` as the creation time
plus that duration. -/
theorem claim_C6 (kek : Bytes) (st : PIIState) (req : TokenizeRequest)
    (freshRef ft fti fiv : Bytes) (now : Nat) (queue : List TokenRecord)
    (queueOk : Bool) (p : Bytes) (resp : TokenizeResponse) (st1 : PIIState)
    (q1 : List TokenRecord)
    (hp1 : p ≠ gs "1day") (hp2 : p ≠ gs "7days") (hp3 : p ≠ gs "30days")
    (hp4 : p ≠ gs "1year") (hp5 : p ≠ gs "7years")
    (hTok : Tokenize kek st req freshRef ft fti fiv now queue queueOk = (resp, st1, q1))
    (hs : resp.status = gs "success") :
    getRetentionDuration (gs "1day") = 24 * timeHour ∧
    getRetentionDuration (gs "7days") = 168 * timeHour ∧
    getRetentionDuration (gs "30days") = 720 * timeHour ∧
    getRetentionDuration (gs "1year") = 8760 * timeHour ∧
    getRetentionDuration (gs "7years") = 61320 * timeHour ∧
    getRetentionDuration p = 24 * timeHour ∧
    resp.expiresAt = now + getRetentionDuration req.retentionPolicy ∧
    (queueOk = true → ∃ ct,
      q1 = queue ++ [⟨freshRef, ct, fiv, req.dataType, req.clientId,
                      req.organizationId, now,
                      now + getRetentionDuration req.retentionPolicy,
                      req.metadata⟩]) := by
  obtain ⟨-, -, ct, -, hresp, hq⟩ := tokenize_success_shape hTok hs
  refine ⟨by decide, by decide, by decide, by decide, by decide, ?_, ?_, ?_⟩
  · unfold getRetentionDuration
    rw [if_neg hp1, if_neg hp2, if_neg hp3, if_neg hp4, if_neg hp5]
  · rw [hresp]
  · intro hqo
    subst hqo
    exact ⟨ct, by simpa using hq⟩

/-- C8: replaying the same `StorePIIToken` message two or more times is
idempotent: the upsert is keyed on `reference_hash`, so (when the key is
unique beforehand, as the schema's UNIQUE constraint guarantees) the
replayed database agrees with the once-applied database on every column
of claim C8 — ciphertext, iv, data_type, client_id, organization_id,
expires_at and metadata — and holds exactly one row for that hash. -/
theorem claim_C8 (db : PiiDB) (req : StorePIITokenRequest) (n1 : Nat)
    (times : List Nat)
    (hkey : ((db.filter (fun r => r.referenceHash == req.referenceHash)).length ≤ 1)) :
    (replayStore db req (n1 :: times)).map piiRowContent
      = (storePIIToken db req n1).map piiRowContent ∧
    ((replayStore db req (n1 :: times)).filter
      (fun r => r.referenceHash == req.referenceHash)).length = 1 := by
  have hkey' : db.countP (fun r => r.referenceHash == req.referenceHash) ≤ 1 := by
    rwa [List.countP_eq_length_filter]
  have hmap : (replayStore db req (n1 :: times)).map piiRowContent
      = (storePIIToken db req n1).map piiRowContent := by
    have hstep : replayStore db req (n1 :: times)
        = replayStore (storePIIToken db req n1) req times := rfl
    rw [hstep]
    exact replayStore_stable req times _ (storePIIToken_present db req n1)
      (storePIIToken_updated db req n1)
  refine ⟨hmap, ?_⟩
  rw [← List.countP_eq_length_filter,
      countP_of_map_content_eq req.referenceHash hmap]
  exact storePIIToken_countP db req n1 hkey'

theorem countP_map_congr {α : Type} (u : α → α) (p : α → Bool) (l : List α)
    (hp : ∀ x, p (u x) = p x) : (l.map u).countP p = l.countP p := by
  rw [List.countP_map]
  exact List.countP_congr (fun x _ => by rw [Function.comp_apply, hp x])

theorem filter_map_fixed {α : Type} (u : α → α) (p : α → Bool) (l : List α)
    (hp : ∀ x, p (u x) = p x) (hfix : ∀ x, p x = true → u x = x) :
    (l.map u).filter p = l.filter p := by
  induction l with
  | nil => rfl
  | cons a l ih =>
    rw [List.map_cons, List.filter_cons, List.filter_cons, hp a]
    by_cases hpa : p a = true
    · rw [if_pos hpa, if_pos hpa, hfix a hpa, ih]
    · rw [if_neg hpa, if_neg hpa, ih]

/-- C1 is refuted by the code: when an organization already has an
active TEK record and the presented organization key does not hash to
the stored `ork_hash`, `getOrCreateTEK` does NOT fail — the failed
`RetrieveTEK` is treated as "TEK not found", so a fresh TEK is created,
the existing record is overwritten by the ON CONFLICT DO UPDATE of
`saveTEKToDatabase` (new wrapped TEK, new `ork_hash`, bumped version),
and the fresh record is cached — as this concrete run shows. -/
theorem claim_C1_code_bug :
    (getOrCreateTEK kek0 stA (gs "acme") (gs "wrong") tek1 iv12b 7).1
      = .ok tekNewA ∧
    (getOrCreateTEK kek0 stA (gs "acme") (gs "wrong") tek1 iv12b 7).2.tekDB
      = [⟨gs "acme", wrapTEKWithKEK kek0 tek1 iv12b, sha256Hex (gs "wrong"),
          1, some 7, 2, true⟩] ∧
    cacheLookup
      (getOrCreateTEK kek0 stA (gs "acme") (gs "wrong") tek1 iv12b 7).2.tekCache
      (gs "acme") = some tekNewA ∧
    verifyOrganizationKey (gs "wrong") tekRowA.orgKeyHash = false ∧
    stA.tekDB = [tekRowA] := by
  decide

/-- C2 is false on the code at this concrete input: the blob sealed by
`encryptPIIWithEnvelope` carries EMPTY associated data, not
`organization_id || 0x00 || data_type`, and the blob sealed by
`wrapTEKWithKEK` carries empty associated data, not `organization_id`. -/
theorem claim_C2_counterexample :
    sealedAad (encryptPIIWithEnvelope kek0 emptyState (gs "user@example.com")
      (gs "acme") (gs "s3cret") tek1 iv12b iv12 0).1 = some [] ∧
    gs "acme" ++ 0 :: gs "email" ≠ [] ∧
    (wrapTEKWithKEK kek0 tek0 iv12).ct.aad = [] ∧
    gs "acme" ≠ [] := by
  decide

/-- C2 amended: every blob sealed by the PII envelope encryption and
every TEK wrap carries EMPTY associated data, and the corresponding
open/unwrap also pass empty associated data (so organization and data
type are not bound into the AEAD; tenant separation rests solely on the
per-organization derived keys). -/
theorem claim_C2_amended (kek : Bytes) (st : PIIState)
    (data org orgKey ft fti fiv : Bytes) (now : Nat) :
    (∀ ct iv st1,
      encryptPIIWithEnvelope kek st data org orgKey ft fti fiv now
        = (.ok (ct, iv), st1) → ct.aad = []) ∧
    (∀ tek fiv2, (wrapTEKWithKEK kek tek fiv2).ct.aad = []) ∧
    (∀ ct iv pt st1,
      decryptPIIWithEnvelope kek st ct iv org orgKey ft fti now
        = (.ok pt, st1) → ct.aad = [] ∧ ct.plaintext = pt) ∧
    (∀ w tek, unwrapTEKWithKEK kek w = .ok tek → w.ct.aad = []) := by
  refine ⟨?_, fun tek fiv2 => rfl, ?_, ?_⟩
  · intro ct iv st1 h
    obtain ⟨rec, tek, -, -, -, hp⟩ := encrypt_shape h
    have hct : ct = gcmSeal (deriveKeyWithHKDF orgKey tek) fiv data [] :=
      congrArg Prod.fst hp
    rw [hct]
    rfl
  · intro ct iv pt st1 h
    exact decrypt_ok_aad h
  · intro w tek h
    exact unwrap_ok_aad h

/-- C2 amended, applied at a concrete input. -/
theorem claim_C2_amended_witness :
    (wrapTEKWithKEK kek0 tek0 iv12).ct.aad = [] :=
  (claim_C2_amended kek0 emptyState (gs "hi") (gs "acme") (gs "s3cret")
    tek1 iv12b iv12 0).2.1 tek0 iv12

/-- C4 is false on the code at these concrete inputs: a reference that
does not exist yields the message `token not found`, while an existing
reference presented with a wrong organization key yields the distinct
message `failed to decrypt PII data - invalid organization key`, so the
caller can tell reference absence apart from a wrong key. -/
theorem claim_C4_counterexample :
    (Detokenize kek0 stA [] dreqGood tek1 iv12b 5 5).1.errorMessage
      = gs "token not found" ∧
    (Detokenize kek0 stA [rowA] dreqWrong tek1 iv12b 5 5).1.errorMessage
      = gs "failed to decrypt PII data - invalid organization key" ∧
    gs "token not found"
      ≠ gs "failed to decrypt PII data - invalid organization key" := by
  decide

/-- C4 amended: the three `Detokenize` failure cases do NOT share one
message.  A record that is absent (or whose expiry the persistence
service already detected) yields `token not found`; a record that the
engine's own check finds expired yields `token has expired`; a record
whose decryption fails yields `failed to decrypt PII data - invalid
organization key`; and the three messages are pairwise distinct, so
reference existence is distinguishable from ORK wrongness. -/
theorem claim_C4_amended (kek : Bytes) (st : PIIState) (db : PiiDB)
    (req : DetokenizeRequest) (ft fti : Bytes) (nowP now : Nat)
    (hv : validateDetokenizeRequest req = .ok ())
    (hk : req.organizationKey ≠ []) :
    (∀ e, retrieveFromDatabase db (stripTok req.referenceHash)
        req.organizationId nowP = .error e →
      Detokenize kek st db req ft fti nowP now
        = (detokenizeError (gs "token not found"), st)) ∧
    (∀ rec, retrieveFromDatabase db (stripTok req.referenceHash)
        req.organizationId nowP = .ok rec →
      now > rec.expiresAt →
      Detokenize kek st db req ft fti nowP now
        = (detokenizeError (gs "token has expired"), st)) ∧
    (∀ rec e2 st1, retrieveFromDatabase db (stripTok req.referenceHash)
        req.organizationId nowP = .ok rec →
      ¬ now > rec.expiresAt →
      decryptPIIWithEnvelope kek st rec.encryptedData rec.iv
        rec.organizationID req.organizationKey ft fti now = (.error e2, st1) →
      Detokenize kek st db req ft fti nowP now
        = (detokenizeError
            (gs "failed to decrypt PII data - invalid organization key"), st1)) ∧
    gs "token not found" ≠ gs "token has expired" ∧
    gs "token not found"
      ≠ gs "failed to decrypt PII data - invalid organization key" ∧
    gs "token has expired"
      ≠ gs "failed to decrypt PII data - invalid organization key" := by
  refine ⟨?_, ?_, ?_, by decide, by decide, by decide⟩
  · intro e hret
    unfold Detokenize
    rw [hv]
    dsimp only
    rw [if_neg hk, hret]
  · intro rec hret hexp
    unfold Detokenize
    rw [hv]
    dsimp only
    rw [if_neg hk, hret]
    dsimp only
    rw [if_pos hexp]
  · intro rec e2 st1 hret hexp hdec
    unfold Detokenize
    rw [hv]
    dsimp only
    rw [if_neg hk, hret]
    dsimp only
    rw [if_neg hexp, hdec]

/-- C4 amended, applied at a concrete input (the absent-record case). -/
theorem claim_C4_amended_witness :
    Detokenize kek0 stA [] dreqGood tek1 iv12b 5 5
      = (detokenizeError (gs "token not found"), stA) :=
  (claim_C4_amended kek0 stA [] dreqGood tek1 iv12b 5 5 (by decide)
    (by decide)).1
    (gs "token not found: Token not found in persistent storage") (by decide)

/-- C5 is false on the code at this concrete input: saving a TEK for an
organization that already has a row REPLACES the row (the query is
INSERT ... ON CONFLICT (organization_id) DO UPDATE), changing its
wrapped TEK and `ork_hash` and bumping its version. -/
theorem claim_C5_counterexample :
    saveTEKToDatabase [tekRowA] tekNewA 7
      = [⟨gs "acme", wrapTEKWithKEK kek0 tek1 iv12b, sha256Hex (gs "wrong"),
          1, some 7, 2, true⟩] ∧
    saveTEKToDatabase [tekRowA] tekNewA 7 ≠ [tekRowA] := by
  decide

/-- C5 amended: storing a TEK for an organization that already has a row
uses INSERT ... ON CONFLICT (organization_id) DO UPDATE semantics — the
existing row is REPLACED in place (new `encrypted_tek` and `org_key_hash`,
`rotated_at` set to now, version incremented, `is_active` forced true)
rather than left alone; the table still holds exactly one row for that
organization and rows of other organizations are untouched. -/
theorem claim_C5_amended (db : TekDB) (t : OrganizationTEK) (now : Nat)
    (r : TekRow)
    (hfind : db.find? (fun x => x.organizationID == t.organizationID) = some r)
    (hkey : (tekRowsFor db t.organizationID).length ≤ 1) :
    saveTEKToDatabase db t now
      = db.map (fun x =>
          if x.organizationID == t.organizationID then
            { x with
              encryptedTEK := t.encryptedTEK
              orgKeyHash := t.orgKeyHash
              rotatedAt := some now
              version := x.version + 1
              isActive := true }
          else x) ∧
    (tekRowsFor (saveTEKToDatabase db t now) t.organizationID).length = 1 ∧
    ∀ org2, org2 ≠ t.organizationID →
      tekRowsFor (saveTEKToDatabase db t now) org2 = tekRowsFor db org2 := by
  have hsave : saveTEKToDatabase db t now
      = db.map (fun x =>
          if x.organizationID == t.organizationID then
            { x with
              encryptedTEK := t.encryptedTEK
              orgKeyHash := t.orgKeyHash
              rotatedAt := some now
              version := x.version + 1
              isActive := true }
          else x) := by
    unfold saveTEKToDatabase
    rw [if_pos (by rw [hfind]; rfl)]
  have horg : ∀ x : TekRow,
      ((fun y : TekRow => if y.organizationID == t.organizationID then
          { y with
            encryptedTEK := t.encryptedTEK
            orgKeyHash := t.orgKeyHash
            rotatedAt := some now
            version := y.version + 1
            isActive := true }
        else y) x).organizationID = x.organizationID := by
    intro x
    dsimp only
    by_cases hx : (x.organizationID == t.organizationID) = true
    · rw [if_pos hx]
    · rw [if_neg hx]
  refine ⟨hsave, ?_, ?_⟩
  · rw [hsave]
    unfold tekRowsFor
    rw [← List.countP_eq_length_filter, countP_map_congr _ _ _ (fun x => by rw [horg x])]
    have hmem : r ∈ db := List.mem_of_find?_eq_some hfind
    have hpr := List.find?_some hfind
    have hpos : 0 < db.countP (fun x => x.organizationID == t.organizationID) :=
      List.countP_pos_iff.mpr ⟨r, hmem, hpr⟩
    unfold tekRowsFor at hkey
    rw [← List.countP_eq_length_filter] at hkey
    omega
  · intro org2 h2
    rw [hsave]
    unfold tekRowsFor
    apply filter_map_fixed
    · intro x
      rw [horg x]
    · intro x hx
      rw [if_neg]
      intro hcontra
      rw [beq_iff_eq] at hx hcontra
      exact h2 (hx ▸ hcontra)

/-- C5 amended, applied at a concrete input. -/
theorem claim_C5_amended_witness :
    (tekRowsFor (saveTEKToDatabase [tekRowA] tekNewA 7) (gs "acme")).length = 1 :=
  (claim_C5_amended [tekRowA] tekNewA 7 tekRowA (by decide) (by decide)).2.1

/-- C3: the envelope round trip through the full pipeline.  For every
valid request, if `Tokenize` succeeds (which covers every valid
plaintext P, organization O, ORK K and allowed data_type D), then after
the persistence worker upserts the queued record into the store,
`Detokenize` of the returned reference with the same organization and
the same ORK, at any time not later than `expires_at` (both at the
store's retrieval check and at the engine's own check), returns exactly
the original plaintext with status `success`. -/
theorem claim_C3 (kek : Bytes) (st : PIIState) (req : TokenizeRequest)
    (freshRef ft fti fiv dft dfti : Bytes) (now nowW nowP now2 : Nat)
    (resp : TokenizeResponse) (st1 : PIIState) (q1 : List TokenRecord)
    (hTok : Tokenize kek st req freshRef ft fti fiv now [] true = (resp, st1, q1))
    (hs : resp.status = gs "success")
    (href : freshRef ≠ [])
    (hP : ¬ (now + getRetentionDuration req.retentionPolicy < nowP))
    (hE : ¬ (now2 > now + getRetentionDuration req.retentionPolicy)) :
    ∃ rec, q1 = [rec] ∧
      Detokenize kek st1 (storePIIToken [] (persistenceRequestOf rec) nowW)
        ⟨resp.referenceHash, gs "support", gs "crm", [], req.organizationId,
         req.organizationKey⟩ dft dfti nowP now2
        = (⟨req.data, req.dataType, nowW, true, gs "success", []⟩, st1) := by
  obtain ⟨hval, hkey, ct, henc, hresp, hq⟩ := tokenize_success_shape hTok hs
  obtain ⟨-, -, -, horg, -⟩ := validate_tokenize_fields hval
  have hq1 : q1 = [⟨freshRef, ct, fiv, req.dataType, req.clientId,
      req.organizationId, now, now + getRetentionDuration req.retentionPolicy,
      req.metadata⟩] := by simpa using hq
  refine ⟨_, hq1, ?_⟩
  have hrespRef : resp.referenceHash = gs "tok_" ++ freshRef := by rw [hresp]
  have hne0 : now + getRetentionDuration req.retentionPolicy ≠ 0 := by
    have := getRetentionDuration_pos req.retentionPolicy
    omega
  have hdb : storePIIToken []
      (persistenceRequestOf ⟨freshRef, ct, fiv, req.dataType, req.clientId,
        req.organizationId, now, now + getRetentionDuration req.retentionPolicy,
        req.metadata⟩) nowW
      = [⟨freshRef, ct, fiv, req.dataType, req.clientId, req.organizationId,
          nowW, some (now + getRetentionDuration req.retentionPolicy), nowW,
          req.metadata⟩] := by
    unfold storePIIToken persistenceRequestOf
    dsimp only
    rw [if_pos hne0]
    rfl
  have hfindrow :
      (List.find? (fun r : PiiRow =>
          r.referenceHash == freshRef && r.organizationID == req.organizationId)
        [⟨freshRef, ct, fiv, req.dataType, req.clientId, req.organizationId,
          nowW, some (now + getRetentionDuration req.retentionPolicy), nowW,
          req.metadata⟩])
      = some ⟨freshRef, ct, fiv, req.dataType, req.clientId,
          req.organizationId, nowW,
          some (now + getRetentionDuration req.retentionPolicy), nowW,
          req.metadata⟩ :=
    List.find?_cons_of_pos _ (by simp)
  have hretr : retrieveFromDatabase
      [⟨freshRef, ct, fiv, req.dataType, req.clientId, req.organizationId,
        nowW, some (now + getRetentionDuration req.retentionPolicy), nowW,
        req.metadata⟩]
      freshRef req.organizationId nowP
      = .ok ⟨freshRef, ct, fiv, req.dataType, req.clientId,
          req.organizationId, nowW,
          now + getRetentionDuration req.retentionPolicy, req.metadata⟩ := by
    unfold retrieveFromDatabase retrievePIITokenFromDatabase
    rw [hfindrow]
    dsimp only
    rw [if_neg hP]
    rfl
  have hvd : validateDetokenizeRequest
      ⟨resp.referenceHash, gs "support", gs "crm", [], req.organizationId,
       req.organizationKey⟩ = .ok () := by
    unfold validateDetokenizeRequest
    dsimp only
    rw [hrespRef]
    rw [if_neg (gs_tok_append_ne_nil freshRef), if_neg (by decide),
        if_neg (by decide), if_neg horg]
  unfold Detokenize
  rw [hvd]
  dsimp only
  rw [if_neg hkey, hrespRef, stripTok_tok_append freshRef href, hdb, hretr]
  dsimp only
  rw [if_neg hE, envelope_roundtrip henc dft dfti now2]

/-- C3 applied at a concrete input: tokenize an email for `acme` with
ORK `s3cret` from the empty state, push the queued record through the
worker's upsert, and detokenize the returned reference. -/
theorem claim_C3_witness :
    (Tokenize kek0 emptyState reqW refW tek1 iv12b iv12 5 [] true).1.status
      = gs "success" ∧
    ∃ rec,
      (Tokenize kek0 emptyState reqW refW tek1 iv12b iv12 5 [] true).2.2 = [rec] ∧
      Detokenize kek0 (Tokenize kek0 emptyState reqW refW tek1 iv12b iv12 5 [] true).2.1
        (storePIIToken [] (persistenceRequestOf rec) 9)
        ⟨(Tokenize kek0 emptyState reqW refW tek1 iv12b iv12 5 [] true).1.referenceHash,
         gs "support", gs "crm", [], reqW.organizationId, reqW.organizationKey⟩
        tek0 iv12 10 11
        = (⟨reqW.data, reqW.dataType, 9, true, gs "success", []⟩,
           (Tokenize kek0 emptyState reqW refW tek1 iv12b iv12 5 [] true).2.1) :=
  ⟨by decide,
   claim_C3 kek0 emptyState reqW refW tek1 iv12b iv12 tek0 iv12 5 9 10 11
     (Tokenize kek0 emptyState reqW refW tek1 iv12b iv12 5 [] true).1
     (Tokenize kek0 emptyState reqW refW tek1 iv12b iv12 5 [] true).2.1
     (Tokenize kek0 emptyState reqW refW tek1 iv12b iv12 5 [] true).2.2
     rfl (by decide) (by decide) (by decide) (by decide)⟩

/-- C6 applied at a concrete input. -/
theorem claim_C6_witness :
    (Tokenize kek0 emptyState reqW refW tek1 iv12b iv12 0 [] true).1.expiresAt
      = 0 + getRetentionDuration reqW.retentionPolicy :=
  (claim_C6 kek0 emptyState reqW refW tek1 iv12b iv12 0 [] true (gs "2weeks")
    (Tokenize kek0 emptyState reqW refW tek1 iv12b iv12 0 [] true).1
    (Tokenize kek0 emptyState reqW refW tek1 iv12b iv12 0 [] true).2.1
    (Tokenize kek0 emptyState reqW refW tek1 iv12b iv12 0 [] true).2.2
    (by decide) (by decide) (by decide) (by decide) (by decide) rfl
    (by decide)).2.2.2.2.2.2.1

/-- C8 applied at a concrete input: three replays of the same message
leave exactly one row for its reference hash. -/
theorem claim_C8_witness :
    ((replayStore [] preqW [1, 2, 3]).filter
      (fun r => r.referenceHash == preqW.referenceHash)).length = 1 :=
  (claim_C8 [] preqW 1 [2, 3] (by decide)).2

/-- C9 applied at a concrete input. -/
theorem claim_C9_witness :
    (Tokenize kek0 emptyState reqW refW tek1 iv12b iv12 0 [] false).1
      = (Tokenize kek0 emptyState reqW refW tek1 iv12b iv12 0 [] true).1 :=
  (claim_C9 kek0 emptyState reqW refW tek1 iv12b iv12 0 [] (by decide)).1

/-- C10 applied at a concrete input. -/
theorem claim_C10_witness :
    stripTok (gs "tok_" ++ refW) = refW :=
  (claim_C10 refW (gs "abc") kek0 emptyState [] dreqGood tek1 iv12b 5 5
    (by decide) (by decide) (by decide)).1

end Mistokenly
